import Mathlib

/-!
Verification of the flusty repository's module resolver and type bridge.

The development shallowly embeds the relevant Rust sources:

* src/parser/src/types.rs           — the fallible (TryFrom-based) type and
  declaration converters of the flusty-parse crate;
* src/parser/src/rust/types.rs      — the infallible (From-based) converters,
  whose failure mode is a Rust panic, modelled here by Option.none;
* src/parser/src/rust/module.rs     — the module resolver (ModuleBuilder);
* src/gen/src/dart.rs, conversion.rs — the naming-convention transforms and the
  primitive type views of the generator crate;
* src/rua_parser/src/types.rs       — the cause-chain ConversionError and the
  error-wrapping declaration extractors.

Rust machine integers that appear (array lengths, spans) are modelled by Nat;
identifier strings are modelled by String; Rust char case functions are
ASCII-accurate, matching Lean's Char.toLower and Char.toUpper on the
identifier alphabet that the code manipulates.
-/

/-! ## Surface syntax model (the used fragment of the syn crate) -/

/-- Literal expressions, as inspected by the array-length conversion
(syn::Expr / syn::Lit). The int payload is the base-10 value. -/
inductive SynLit where
  | int (value : Nat)
  | otherLit
deriving DecidableEq

/-- Expressions: only literals are distinguished by the code under study. -/
inductive SynExpr where
  | lit (l : SynLit)
  | otherExpr
deriving DecidableEq

mutual
/-- The syn::Type fragment. Every syntactic form matched by
TryFrom for &Type in src/parser/src/types.rs is present. -/
inductive SynType where
  | path (segments : List SynPathSegment)
  | array (elem : SynType) (len : SynExpr)
  | bareFn
  | group
  | implTrait
  | infer
  | macroForm
  | never
  | paren
  | ptr (elem : SynType)
  | reference
  | slice
  | traitObject
  | tuple (elems : List SynType)
  | verbatim

/-- A path segment: identifier plus generic arguments (syn::PathSegment). -/
inductive SynPathSegment where
  | mk (ident : String) (arguments : SynPathArguments)

/-- Generic arguments of a path segment (syn::PathArguments). -/
inductive SynPathArguments where
  | none
  | angleBracketed (args : List SynGenericArgument)
  | parenthesized

/-- A generic argument (syn::GenericArgument); only Type arguments are
inspected by the code, all others are lumped into otherArg. -/
inductive SynGenericArgument where
  | type (ty : SynType)
  | otherArg
end

/-- Identifier of a path segment. -/
def SynPathSegment.ident : SynPathSegment → String
  | .mk i _ => i

/-- Generic arguments of a path segment. -/
def SynPathSegment.arguments : SynPathSegment → SynPathArguments
  | .mk _ a => a

/-- Patterns (syn::Pat): the code only distinguishes identifier patterns. -/
inductive SynPat where
  | identPat (name : String)
  | otherPat
deriving DecidableEq

/-- Function arguments (syn::FnArg). -/
inductive SynFnArg where
  | typed (pat : SynPat) (ty : SynType)
  | receiver

/-- Return types (syn::ReturnType). -/
inductive SynReturnType where
  | default
  | ty (t : SynType)

/-- A struct or enum-variant field (syn::Field): optional name plus a type. -/
structure SynField where
  ident : Option String
  ty : SynType

/-- The three field layouts of syn::Fields. -/
inductive SynFields where
  | named (fields : List SynField)
  | unnamed (fields : List SynField)
  | unit

/-- The list of fields a syn::Fields iterator yields. -/
def SynFields.list : SynFields → List SynField
  | .named fs => fs
  | .unnamed fs => fs
  | .unit => []

/-- Rust item visibility (syn::Visibility). -/
inductive SynVis where
  | public
  | restricted
  | inherited
deriving DecidableEq

/-- Attribute meta (syn::Meta): a plain path, a list, or a name=value pair.
Paths are modelled as their segment-identifier lists. -/
inductive SynMeta where
  | path (segments : List String)
  | list (pathSegments : List String)
  | nameValue (pathSegments : List String)
deriving DecidableEq

/-- A function item (syn::ItemFn: attrs, vis, and the used parts of sig). -/
structure SynItemFn where
  attrs : List SynMeta
  vis : SynVis
  ident : String
  inputs : List SynFnArg
  output : SynReturnType

/-- A struct item (syn::ItemStruct). -/
structure SynItemStruct where
  attrs : List SynMeta
  vis : SynVis
  ident : String
  fields : SynFields

/-- An enum variant (syn::Variant). -/
structure SynVariant where
  ident : String
  fields : SynFields

/-- An enum item (syn::ItemEnum). -/
structure SynItemEnum where
  attrs : List SynMeta
  vis : SynVis
  ident : String
  variants : List SynVariant

/-! ## Outcomes of running fallible Rust code

A Rust function returning Result may also diverge by hitting a panicking or
todo branch. RunResult keeps the three outcomes apart: ok, a returned error,
and a divergence (panic, todo, unreachable), the last labelled by the branch
that was hit. -/

/-- Outcome of a Rust computation: value, returned error, or divergence. -/
inductive RunResult (ε α : Type) where
  | ok (a : α)
  | err (e : ε)
  | diverged (branch : String)
deriving DecidableEq

/-- Sequencing of RunResult computations; mirrors the question-mark operator
(errors propagate) together with panic propagation. -/
def RunResult.bind : RunResult ε α → (α → RunResult ε β) → RunResult ε β
  | .ok a, f => f a
  | .err e, _ => .err e
  | .diverged m, _ => .diverged m

/-- Functorial map on the ok value. -/
def RunResult.map (f : α → β) : RunResult ε α → RunResult ε β
  | .ok a => .ok (f a)
  | .err e => .err e
  | .diverged m => .diverged m

/-- True exactly on ok outcomes. -/
def RunResult.isOk : RunResult ε α → Bool
  | .ok _ => true
  | _ => false

/-- Lift the Except value of infallible-by-construction Rust code. -/
def RunResult.ofExcept : Except ε α → RunResult ε α
  | .ok a => .ok a
  | .error e => .err e

/-- Collect a list of conversions, stopping at the first non-ok outcome;
this is the semantics of collect::<Result<Vec<_>, _>> over an iterator that
is mapped with a fallible (and possibly panicking) function. -/
def runCollect (f : α → RunResult ε β) : List α → RunResult ε (List β)
  | [] => .ok []
  | a :: rest =>
    (f a).bind fun b => (runCollect f rest).map fun bs => b :: bs

/-! ## src/parser/src/types.rs — the fallible converters (flusty-parse) -/

/-- The ConversionError enum of src/parser/src/types.rs. -/
inductive PConversionError where
  | unnamedField (ty msg : String)
  | unknownPrimitive (ty msg : String)
  | receiverField (ty msg : String)
  | unknownType (ty msg : String)
  | genericType (ty msg : String)
  | unknownArrayLength (ty msg : String)
deriving DecidableEq

/-- The RsPrimitive enum (identical in both parser crates). -/
inductive RsPrimitive where
  | i8 | i16 | i32 | i64 | i128
  | u8 | u16 | u32 | u64 | u128
  | f32 | f64
  | bool | char | str | string | unit
deriving DecidableEq

mutual
/-- The RsType enum of src/parser/src/types.rs. -/
inductive PRsType where
  | struct (s : PRsStruct)
  | enum (e : PRsEnum)
  | primitive (p : RsPrimitive)
  | tuple (t : PRsTuple)
  | array (a : PRsArray)
  | slice (s : PRsSlice)
  | func (f : PRsFn)
  | pointer (p : PRsPointer)

/-- RsStruct: name and ordered fields. -/
inductive PRsStruct where
  | mk (name : String) (fields : List PRsField)

/-- RsField: name and type. -/
inductive PRsField where
  | mk (name : String) (ty : PRsType)

/-- RsEnum: name and ordered variants. -/
inductive PRsEnum where
  | mk (name : String) (variants : List PRsVariant)

/-- RsVariant: name and ordered fields. -/
inductive PRsVariant where
  | mk (name : String) (fields : List PRsField)

/-- RsFn: name, ordered args, boxed return type. -/
inductive PRsFn where
  | mk (name : String) (args : List PRsField) (ret : PRsType)

/-- RsArray: boxed element type and usize length (modelled by Nat). -/
inductive PRsArray where
  | mk (ty : PRsType) (len : Nat)

/-- RsSlice: boxed element type. -/
inductive PRsSlice where
  | mk (ty : PRsType)

/-- RsPointer: boxed pointee and mutability flag. -/
inductive PRsPointer where
  | mk (ty : PRsType) (mutable : Bool)

/-- RsTuple: ordered element types. -/
inductive PRsTuple where
  | mk (types : List PRsType)
end

/-- TryFrom for &str producing RsPrimitive: the fixed table of primitive
spellings of src/parser/src/types.rs (note that i128, u64 and u128 are all
recognized here). -/
def RsPrimitive.fromStr (value : String) : Except PConversionError RsPrimitive :=
  if value = "i8" then .ok .i8
  else if value = "i16" then .ok .i16
  else if value = "i32" then .ok .i32
  else if value = "i64" then .ok .i64
  else if value = "i128" then .ok .i128
  else if value = "u8" then .ok .u8
  else if value = "u16" then .ok .u16
  else if value = "u32" then .ok .u32
  else if value = "u64" then .ok .u64
  else if value = "u128" then .ok .u128
  else if value = "f32" then .ok .f32
  else if value = "f64" then .ok .f64
  else if value = "bool" then .ok .bool
  else if value = "Char" ∨ value = "char" then .ok .char
  else if value = "str" then .ok .str
  else if value = "string" ∨ value = "String" then .ok .string
  else if value = "unit" ∨ value = "Unit" then .ok .unit
  else .error (.unknownPrimitive value "Unknown primitive type")

/-- TryFrom for &TypePath producing RsType. The source iterates the path
segments, but every iteration exits the function: a segment without generic
arguments returns the primitive lookup (the question-mark operator propagates
its error immediately), and a segment with any generic arguments returns the
GenericType error. Hence only the first segment is ever inspected, and an
empty segment list falls through to the UnknownType error. -/
def pRsTypeFromTypePath (segments : List SynPathSegment) :
    Except PConversionError PRsType :=
  match segments with
  | [] => .error (.unknownType "Type::Path" "Unknown type")
  | seg :: _ =>
    match seg.arguments with
    | .none => (RsPrimitive.fromStr seg.ident).map PRsType.primitive
    | _ => .error (.genericType "Type::Path" "Generic types are not supported")

mutual
/-- TryFrom for &Type producing RsType (src/parser/src/types.rs line 492):
paths and arrays are converted, every other syntactic form is a todo branch. -/
def pRsTypeFromType : SynType → RunResult PConversionError PRsType
  | .path segments => RunResult.ofExcept (pRsTypeFromTypePath segments)
  | .array elem len => (pRsArrayFromTypeArray elem len).map PRsType.array
  | .bareFn => .diverged "Type::BareFn"
  | .group => .diverged "Type::Group"
  | .implTrait => .diverged "Type::ImplTrait"
  | .infer => .diverged "Type::Infer"
  | .macroForm => .diverged "Type::Macro"
  | .never => .diverged "Type::Never"
  | .paren => .diverged "Type::Paren"
  | .ptr _ => .diverged "Type::Ptr"
  | .reference => .diverged "Type::Reference"
  | .slice => .diverged "Type::Slice"
  | .traitObject => .diverged "Type::TraitObject"
  | .tuple _ => .diverged "Type::Tuple"
  | .verbatim => .diverged "Type::Verbatim"

/-- TryFrom for &TypeArray producing RsArray: convert the element, then
require the length to be an integer literal; any other length expression
yields UnknownArrayLength. -/
def pRsArrayFromTypeArray (elem : SynType) (len : SynExpr) :
    RunResult PConversionError PRsArray :=
  (pRsTypeFromType elem).bind fun ty =>
    match len with
    | .lit (.int n) => .ok (.mk ty n)
    | .lit .otherLit =>
      .err (.unknownArrayLength "Type::Array" "Unknown array length")
    | .otherExpr =>
      .err (.unknownArrayLength "Type::Array" "Unknown array length")
end

/-- TryFrom for &Field producing RsField: the field must carry a name,
otherwise UnnamedField; then its type is converted. -/
def pRsFieldFromField (f : SynField) : RunResult PConversionError PRsField :=
  match f.ident with
  | .none => .err (.unnamedField "Field" "Unnamed fields are not supported")
  | .some name => (pRsTypeFromType f.ty).map (PRsField.mk name)

/-- TryFrom for &FnArg producing RsField: a typed argument needs an
identifier pattern, a receiver argument is rejected with ReceiverField. -/
def pRsFieldFromFnArg : SynFnArg → RunResult PConversionError PRsField
  | .typed pat ty =>
    match pat with
    | .identPat name => (pRsTypeFromType ty).map (PRsField.mk name)
    | .otherPat =>
      .err (.unnamedField "FnArg::Typed" "Unnamed fields are not supported")
  | .receiver =>
    .err (.receiverField "FnArg::Receiver" "Function receivers are not supported")

/-- Conversion of the declared return type inside TryFrom for &ItemFn:
an omitted return type becomes the Unit primitive. -/
def pRsRetFromOutput : SynReturnType → RunResult PConversionError PRsType
  | .default => .ok (.primitive .unit)
  | .ty t => pRsTypeFromType t

/-- TryFrom for &ItemFn producing RsFn: name from the signature identifier,
arguments collected through the FnArg conversion, then the return type. -/
def pRsFnFromItemFn (f : SynItemFn) : RunResult PConversionError PRsFn :=
  (runCollect pRsFieldFromFnArg f.inputs).bind fun args =>
    (pRsRetFromOutput f.output).map fun ret => PRsFn.mk f.ident args ret

/-- TryFrom for &ItemStruct producing RsStruct: named and unnamed field
lists are both sent through the same Field conversion; a unit struct has no
fields. -/
def pRsStructFromItemStruct (s : SynItemStruct) :
    RunResult PConversionError PRsStruct :=
  (match s.fields with
    | .named fs => runCollect pRsFieldFromField fs
    | .unnamed fs => runCollect pRsFieldFromField fs
    | .unit => .ok []).map fun fields => PRsStruct.mk s.ident fields

/-- TryFrom for &Variant producing RsVariant: same field treatment as
structs. -/
def pRsVariantFromVariant (v : SynVariant) :
    RunResult PConversionError PRsVariant :=
  (match v.fields with
    | .named fs => runCollect pRsFieldFromField fs
    | .unnamed fs => runCollect pRsFieldFromField fs
    | .unit => .ok []).map fun fields => PRsVariant.mk v.ident fields

/-- TryFrom for &ItemEnum producing RsEnum. -/
def pRsEnumFromItemEnum (e : SynItemEnum) :
    RunResult PConversionError PRsEnum :=
  (runCollect pRsVariantFromVariant e.variants).map fun variants =>
    PRsEnum.mk e.ident variants

/-! ## src/parser/src/rust/types.rs — the infallible converters

These From impls have no error channel: every unsupported case is a Rust
panic. A panic is modelled by Option.none. Note that this crate's RsType has
no Array or Slice form and its Pointer carries no mutability flag. -/

mutual
/-- The RsType enum of src/parser/src/rust/types.rs: Struct, Enum, Tuple,
Fn (named func here), Primitive, Pointer (a bare box, no mutable flag). -/
inductive RRsType where
  | struct (s : RRsStruct)
  | enum (e : RRsEnum)
  | tuple (types : List RRsType)
  | func (f : RRsFn)
  | primitive (p : RsPrimitive)
  | pointer (ty : RRsType)

/-- RsStruct of the rust submodule. -/
inductive RRsStruct where
  | mk (name : String) (fields : List RRsField)

/-- RsField of the rust submodule. -/
inductive RRsField where
  | mk (name : String) (ty : RRsType)

/-- RsEnum of the rust submodule. -/
inductive RRsEnum where
  | mk (name : String) (variants : List RRsVariant)

/-- RsVariant of the rust submodule. -/
inductive RRsVariant where
  | mk (name : String) (fields : List RRsField)

/-- RsFn of the rust submodule. -/
inductive RRsFn where
  | mk (name : String) (args : List RRsField) (ret : RRsType)
end

/-- The first-segment primitive table of From for Type in
src/parser/src/rust/types.rs (no Char, string, unit or Unit spellings here;
a literal "()" spelling maps to Unit); an unrecognized name panics. -/
def rPrimFromName (name : String) : Option RsPrimitive :=
  if name = "i8" then some .i8
  else if name = "i16" then some .i16
  else if name = "i32" then some .i32
  else if name = "i64" then some .i64
  else if name = "i128" then some .i128
  else if name = "u8" then some .u8
  else if name = "u16" then some .u16
  else if name = "u32" then some .u32
  else if name = "u64" then some .u64
  else if name = "u128" then some .u128
  else if name = "f32" then some .f32
  else if name = "f64" then some .f64
  else if name = "bool" then some .bool
  else if name = "char" then some .char
  else if name = "str" then some .str
  else if name = "()" then some .unit
  else if name = "String" then some .string
  else none

mutual
/-- From for Type producing RsType (src/parser/src/rust/types.rs line 147).
For a path, the FIRST segment is parsed with the primitive table (panicking
on any other name, the Option wrapper included); each FOLLOWING segment must
be an Option wrapper and rebinds the running result to a Pointer around its
converted first generic argument. Tuples recurse elementwise, raw pointers
recurse on the pointee, and every other form panics. -/
def rRsTypeFromType : SynType → Option RRsType
  | .path segments =>
    match segments with
    | [] => none
    | first :: rest =>
      match rPrimFromName first.ident with
      | none => none
      | some p => rFoldSegments (RRsType.primitive p) rest
  | .tuple elems =>
    (rMapTypes elems).map RRsType.tuple
  | .ptr elem =>
    (rRsTypeFromType elem).map RRsType.pointer
  | _ => none

/-- The loop over the non-first path segments: a segment named Option with
angle-bracketed arguments whose first argument is a type becomes a Pointer
around that converted type (discarding the running result); any other
segment panics. -/
def rFoldSegments (res : RRsType) : List SynPathSegment → Option RRsType
  | [] => some res
  | seg :: rest =>
    match seg with
    | .mk name args =>
      if name = "Option" then
        match args with
        | .angleBracketed genArgs =>
          match genArgs with
          | [] => none
          | .type innerTy :: _ =>
            match rRsTypeFromType innerTy with
            | none => none
            | some inner => rFoldSegments (RRsType.pointer inner) rest
          | .otherArg :: _ => none
        | _ => none
      else none

/-- Elementwise conversion of tuple members (collect over an infallible but
panicking map). -/
def rMapTypes : List SynType → Option (List RRsType)
  | [] => some []
  | t :: rest =>
    match rRsTypeFromType t with
    | none => none
    | some ty => (rMapTypes rest).map fun tys => ty :: tys
end

/-- From for Field producing RsField: panics when the field has no name,
then converts the type. -/
def rRsFieldFromField (f : SynField) : Option RRsField :=
  match f.ident with
  | .none => none
  | .some name => (rRsTypeFromType f.ty).map (RRsField.mk name)

/-- From for FnArg producing RsField: panics on receivers and on unnamed
patterns. -/
def rRsFieldFromFnArg : SynFnArg → Option RRsField
  | .typed pat ty =>
    match pat with
    | .identPat name => (rRsTypeFromType ty).map (RRsField.mk name)
    | .otherPat => none
  | .receiver => none

/-- Elementwise field conversion. -/
def rMapFields (f : α → Option RRsField) : List α → Option (List RRsField)
  | [] => some []
  | a :: rest =>
    match f a with
    | none => none
    | some fld => (rMapFields f rest).map fun flds => fld :: flds

/-- From for ItemFn producing RsFn: name from the signature, args through
the FnArg conversion, return type defaulting to Unit. -/
def rRsFnFromItemFn (f : SynItemFn) : Option RRsFn :=
  (rMapFields rRsFieldFromFnArg f.inputs).bind fun args =>
    (match f.output with
      | .default => some (RRsType.primitive .unit)
      | .ty t => rRsTypeFromType t).map fun ret => RRsFn.mk f.ident args ret

/-- From for ItemStruct producing RsStruct: all fields (named or unnamed
alike) go through the Field conversion. -/
def rRsStructFromItemStruct (s : SynItemStruct) : Option RRsStruct :=
  (rMapFields rRsFieldFromField s.fields.list).map fun fields =>
    RRsStruct.mk s.ident fields

/-- From for Variant producing RsVariant. -/
def rRsVariantFromVariant (v : SynVariant) : Option RRsVariant :=
  (rMapFields rRsFieldFromField v.fields.list).map fun fields =>
    RRsVariant.mk v.ident fields

/-- Elementwise variant conversion. -/
def rMapVariants : List SynVariant → Option (List RRsVariant)
  | [] => some []
  | v :: rest =>
    match rRsVariantFromVariant v with
    | none => none
    | some rv => (rMapVariants rest).map fun rvs => rv :: rvs

/-- From for ItemEnum producing RsEnum. -/
def rRsEnumFromItemEnum (e : SynItemEnum) : Option RRsEnum :=
  (rMapVariants e.variants).map fun variants => RRsEnum.mk e.ident variants

/-! ## src/parser/src/rust/module.rs — the module resolver -/

/-- The ModuleError enum. -/
inductive ModuleError where
  | missingName
  | missingPath
  | invalidModule (name path : String)
deriving DecidableEq

/-- The items of a parsed source file that the resolver scan inspects
(syn::Item): nested modules, functions, structs, enums, anything else. -/
inductive ScanItem where
  | modItem (vis : SynVis) (ident : String)
  | fnItem (f : SynItemFn)
  | structItem (s : SynItemStruct)
  | enumItem (e : SynItemEnum)
  | otherItem

/-- A parsed source file (syn::File): its item list. -/
structure SynFile where
  items : List ScanItem

/-- The resolved Module tree (named FlModule here; Module in the source). -/
inductive FlModule where
  | mk (name path : String) (children : List FlModule)
      (structs : List RRsStruct) (functions : List RRsFn)
      (enums : List RRsEnum)

/-- The accumulating part of ModuleBuilder state (children and the three
declaration lists; name, path and the marker set are passed explicitly). -/
structure BuilderState where
  children : List FlModule
  structs : List RRsStruct
  functions : List RRsFn
  enums : List RRsEnum
deriving Inhabited

/-- ModuleBuilder::read_module. The file system is a parameter mapping a
path to the contents of a readable file, and the external syn parser is a
parameter mapping contents to a parsed file when parsing succeeds. The
first candidate path is path/name.rs; only when that file cannot be read is
path/name.mod.rs tried; an unreadable pair, like an unparsable read, yields
InvalidModule carrying the builder's name and path. -/
def readModule (fs : String → Option String) (doParse : String → Option SynFile)
    (nameOpt pathOpt : Option String) : Except ModuleError SynFile :=
  match nameOpt with
  | .none => .error .missingName
  | .some name =>
    match pathOpt with
    | .none => .error .missingPath
    | .some path =>
      match fs (path ++ "/" ++ name ++ ".rs") with
      | .some contents =>
        match doParse contents with
        | .some file => .ok file
        | .none => .error (.invalidModule name path)
      | .none =>
        match fs (path ++ "/" ++ name ++ ".mod.rs") with
        | .some contents =>
          match doParse contents with
          | .some file => .ok file
          | .none => .error (.invalidModule name path)
        | .none => .error (.invalidModule name path)

/-- Path::is_ident of the attribute path against one annotation: true only
for a single-segment path whose identifier is exactly the annotation. -/
def pathIsIdent (segments : List String) (marker : String) : Bool :=
  segments = [marker]

/-- ModuleBuilder::should_include: a Meta::Path or Meta::List attribute
matches when its path is some configured annotation identifier; a
Meta::NameValue attribute never matches. -/
def shouldInclude (annotations : List String) : SynMeta → Bool
  | .path segments => annotations.any fun a => pathIsIdent segments a
  | .list pathSegments => annotations.any fun a => pathIsIdent pathSegments a
  | .nameValue _ => false

/-- ModuleBuilder::handle_fn: only a public function is considered; the
attribute loop pushes the converted function at the first matching
attribute and leaves the builder untouched when no attribute matches. The
conversion itself is the panicking From impl, so a matching item whose
signature is unsupported panics (none). -/
def handleFn (annotations : List String) (item : SynItemFn)
    (st : BuilderState) : Option BuilderState :=
  match item.vis with
  | .public =>
    if item.attrs.any (shouldInclude annotations) then
      (rRsFnFromItemFn item).map fun f =>
        { st with functions := st.functions ++ [f] }
    else some st
  | _ => some st

/-- ModuleBuilder::handle_struct, same structure as handle_fn. -/
def handleStruct (annotations : List String) (item : SynItemStruct)
    (st : BuilderState) : Option BuilderState :=
  match item.vis with
  | .public =>
    if item.attrs.any (shouldInclude annotations) then
      (rRsStructFromItemStruct item).map fun s =>
        { st with structs := st.structs ++ [s] }
    else some st
  | _ => some st

/-- ModuleBuilder::handle_enum, same structure as handle_fn. -/
def handleEnum (annotations : List String) (item : SynItemEnum)
    (st : BuilderState) : Option BuilderState :=
  match item.vis with
  | .public =>
    if item.attrs.any (shouldInclude annotations) then
      (rRsEnumFromItemEnum item).map fun e =>
        { st with enums := st.enums ++ [e] }
    else some st
  | _ => some st

/-- One iteration of the ModuleBuilder::data loop. A public nested module is
resolved through resolveChild, which stands for the recursive builder run
(new builder, same annotations and path, child name, data, build) and whose
outcome may be a panic (none), a ModuleError, or a child Module appended to
children; a non-public nested module is skipped; other items go through the
handlers above. -/
def scanStep (resolveChild : String → Option (Except ModuleError FlModule))
    (annotations : List String) (item : ScanItem) (st : BuilderState) :
    Option (Except ModuleError BuilderState) :=
  match item with
  | .modItem vis ident =>
    match vis with
    | .public =>
      match resolveChild ident with
      | .none => none
      | .some (.error e) => some (.error e)
      | .some (.ok child) =>
        some (.ok { st with children := st.children ++ [child] })
    | _ => some (.ok st)
  | .fnItem f => (handleFn annotations f st).map Except.ok
  | .structItem s => (handleStruct annotations s st).map Except.ok
  | .enumItem e => (handleEnum annotations e st).map Except.ok
  | .otherItem => some (.ok st)

/-- The item loop of ModuleBuilder::data: items are scanned in declaration
order, the first error or panic aborting the whole scan. -/
def scanItems (resolveChild : String → Option (Except ModuleError FlModule))
    (annotations : List String) :
    List ScanItem → BuilderState → Option (Except ModuleError BuilderState)
  | [], st => some (.ok st)
  | item :: rest, st =>
    match scanStep resolveChild annotations item st with
    | .none => none
    | .some (.error e) => some (.error e)
    | .some (.ok st1) => scanItems resolveChild annotations rest st1

/-! ## src/gen/src/dart.rs — naming-convention transforms

The Named trait derives the three case spellings from one stored canonical
name. The three default method bodies are mutually recursive (snake reads
the camel name, pascal reads the snake name, camel reads the pascal name)
and each implementing type overrides exactly one of them to return the
stored name, so the bodies act as pure string transforms along that chain.
They are modelled here as functions on character lists; String wrappers
follow. Char.toLower, Char.toUpper, Char.isUpper and Char.isLower agree
with the Rust char case functions on ASCII identifiers. -/

/-- The loop body of the default snake_case_name: a non-uppercase character
is copied; an uppercase character consumes the following character from the
iterator (which is therefore dropped from the output), contributes an
underscore when that following character is lowercase, and is pushed
lowercased. -/
def snakeLoop : List Char → List Char
  | [] => []
  | c :: rest =>
    if c.isUpper then
      match rest with
      | [] => [c.toLower]
      | next :: rest1 =>
        (if next.isLower then [ '_' , c.toLower] else [c.toLower])
          ++ snakeLoop rest1
    else c :: snakeLoop rest

/-- Splitting on underscores, with Rust str::split semantics: the empty
string yields one empty segment, and adjacent separators yield empty
segments. -/
def splitUnd : List Char → List (List Char)
  | [] => [[]]
  | c :: rest =>
    if c = '_' then [] :: splitUnd rest
    else
      match splitUnd rest with
      | [] => [[c]]
      | seg :: segs => (c :: seg) :: segs

/-- Capitalizing one segment: uppercase the first character. -/
def capitalizeSeg : List Char → List Char
  | [] => []
  | c :: rest => c.toUpper :: rest

/-- The default pascal_case_name body as a transform of the snake name:
split on underscores, capitalize every segment, concatenate. -/
def pascalize (s : List Char) : List Char :=
  ((splitUnd s).map capitalizeSeg).flatten

/-- The default camel_case_name body: lowercase only the first character of
the pascal spelling. -/
def lowerFirst : List Char → List Char
  | [] => []
  | c :: rest => c.toLower :: rest

/-- The snake-case transform on strings (the default snake_case_name body
applied to the characters of the given name). -/
def snakeCase (s : String) : String := ⟨snakeLoop s.data⟩

/-- The pascal-case transform on strings, per the derivation order of the
Named trait (the canonical name is the snake spelling). -/
def pascalCase (s : String) : String := ⟨pascalize s.data⟩

/-- The camel-case transform on strings: the default camel_case_name body
composed with the pascal derivation it invokes. -/
def camelCase (s : String) : String := ⟨lowerFirst (pascalize s.data)⟩

/-! ## src/gen/src/dart.rs and src/gen/src/conversion.rs — primitive views -/

/-- The ConversionError enum of src/gen/src/dart.rs (payloads beyond the
unsupported type are not needed by the statements below). -/
inductive GenConversionError where
  | unsupportedType (ty : RsPrimitive)
  | missingModuleName
  | missingLibPath
  | missingLibName
deriving DecidableEq

/-- DartType::name for RsPrimitive (src/gen/src/dart.rs line 187): the
(native, ffi, dart) spelling triple, with I128, U64 and U128 rejected as
UnsupportedType. -/
def primName : RsPrimitive →
    Except GenConversionError (String × String × String)
  | .i8 => .ok ("i8", "ffi.Int8", "int")
  | .i16 => .ok ("i16", "ffi.Int16", "int")
  | .i32 => .ok ("i32", "ffi.Int32", "int")
  | .i64 => .ok ("i64", "ffi.Int64", "int")
  | .i128 => .error (.unsupportedType .i128)
  | .u8 => .ok ("u8", "ffi.Uint8", "int")
  | .u16 => .ok ("u16", "ffi.Uint16", "int")
  | .u32 => .ok ("u32", "ffi.Uint32", "int")
  | .u64 => .error (.unsupportedType .u64)
  | .u128 => .error (.unsupportedType .u128)
  | .f32 => .ok ("f32", "ffi.Float", "double")
  | .f64 => .ok ("f64", "ffi.Double", "double")
  | .bool => .ok ("bool", "ffi.Uint8", "bool")
  | .char => .ok ("char", "ffi.Int32", "String")
  | .str => .ok ("str", "ffi.Pointer<ffi.Utf8>", "String")
  | .string => .ok ("String", "ffi.Pointer<ffi.Utf8>", "String")
  | .unit => .ok ("()", "ffi.Void", "void")

/-- The DartConversionErr enum of src/gen/src/conversion.rs, restricted to
the constructor the primitive view uses. -/
inductive DartConversionErr where
  | unsupportedPrimitive (p : RsPrimitive)
deriving DecidableEq

/-- ToDartFfi::to_dart_ffi for RsPrimitive (src/gen/src/conversion.rs line
152): the ffi spelling, with I128, U64 and U128 rejected as
UnsupportedPrimitive. -/
def toDartFfi : RsPrimitive → Except DartConversionErr String
  | .i8 => .ok "ffi.Int8"
  | .i16 => .ok "ffi.Int16"
  | .i32 => .ok "ffi.Int32"
  | .i64 => .ok "ffi.Int64"
  | .i128 => .error (.unsupportedPrimitive .i128)
  | .u8 => .ok "ffi.Uint8"
  | .u16 => .ok "ffi.Uint16"
  | .u32 => .ok "ffi.Uint32"
  | .u64 => .error (.unsupportedPrimitive .u64)
  | .u128 => .error (.unsupportedPrimitive .u128)
  | .f32 => .ok "ffi.Float"
  | .f64 => .ok "ffi.Double"
  | .bool => .ok "ffi.Bool"
  | .char => .ok "ffi.Char"
  | .str => .ok "ffi.Pointer<ffi.Utf8>"
  | .string => .ok "ffi.String"
  | .unit => .ok "ffi.Void"

/-! ## src/rua_parser/src/types.rs — cause-chain errors and wrapping -/

/-- RsPosition: a line and column. -/
structure RsPosition where
  line : Nat
  column : Nat
deriving DecidableEq

/-- RsSpan: start and end positions (end renamed to stop here). -/
structure RsSpan where
  start : RsPosition
  stop : RsPosition
deriving DecidableEq

/-- The ConversionError struct of src/rua_parser/src/types.rs: optional
source type, destination type, message, rendered item description (data),
boxed inner cause, and span. The recursive cause makes this an inductive
with one constructor. -/
inductive RuaError where
  | mk (src dst msg data : Option String) (source : Option RuaError)
      (span : Option RsSpan)

/-- The src field. -/
def RuaError.src : RuaError → Option String
  | .mk s _ _ _ _ _ => s

/-- The dst field. -/
def RuaError.dst : RuaError → Option String
  | .mk _ d _ _ _ _ => d

/-- The msg field. -/
def RuaError.msg : RuaError → Option String
  | .mk _ _ m _ _ _ => m

/-- The data field (the rendered description of the offending item). -/
def RuaError.data : RuaError → Option String
  | .mk _ _ _ d _ _ => d

/-- The boxed inner cause. -/
def RuaError.source : RuaError → Option RuaError
  | .mk _ _ _ _ s _ => s

/-- The span field. -/
def RuaError.span : RuaError → Option RsSpan
  | .mk _ _ _ _ _ sp => sp

/-- The innermost entry of a cause chain: follow source links to the end. -/
def RuaError.innermost : RuaError → RuaError
  | .mk s d m da source sp =>
    match source with
    | .none => .mk s d m da none sp
    | .some inner => inner.innermost

/-- The rua RsType, restricted to the two constructors the claims exercise
(primitives; the full enum mirrors the flusty-parse one). -/
inductive RuaRsType where
  | primitive (p : RsPrimitive)
  | unitTy
deriving DecidableEq

/-- RsField of rua_parser. -/
structure RuaRsField where
  name : String
  ty : RuaRsType
deriving DecidableEq

/-- RsStruct of rua_parser. -/
structure RuaRsStruct where
  name : String
  fields : List RuaRsField
deriving DecidableEq

/-- The raw type of a field as the rua extractor sees it: a named path,
carried with enough data for the description helper. -/
inductive RuaType where
  | pathTy (ident : String)
deriving DecidableEq

/-- A syn::Field as used by the rua extractor: optional name, type, span. -/
structure RuaField where
  ident : Option String
  ty : RuaType
  span : RsSpan

/-- A syn::ItemStruct as used by the rua extractor. -/
structure RuaItemStruct where
  ident : String
  fields : List RuaField
  span : RsSpan

/-- Modelled from the spec: Descriptable for the raw type (the impl for
&Type in src/rua_parser/src/types.rs is a todo branch). Per the spec the
descriptive-formatting facility is a read-only helper rendering the item's
source spelling, so a named path renders as its identifier. -/
def describeRuaType : RuaType → String
  | .pathTy ident => ident

/-- Descriptable for &Field: field name, colon, described type. Only called
on named fields (the unnamed case panics in the source on unwrap). -/
def describeRuaField (name : String) (ty : RuaType) : String :=
  "field " ++ name ++ ": " ++ describeRuaType ty

/-- Descriptable for &ItemStruct: the word struct and the identifier. -/
def describeRuaStruct (ident : String) : String :=
  "struct " ++ ident

/-- Modelled from the spec: the leaf type conversion, TryFrom for &Type
producing RsType, is a todo branch in src/rua_parser/src/types.rs. Per the
spec (sections 4.1 and 7) a named path resolves against the fixed table of
primitive spellings supported at the foreign boundary, and an unsupported
spelling such as u128 yields an error naming that type (the spec's example
diagnostic reads: unknown primitive type u128). -/
def ruaConvertType : RuaType → Except RuaError RuaRsType
  | .pathTy ident =>
    if ident = "i8" then .ok (.primitive .i8)
    else if ident = "i16" then .ok (.primitive .i16)
    else if ident = "i32" then .ok (.primitive .i32)
    else if ident = "i64" then .ok (.primitive .i64)
    else if ident = "u8" then .ok (.primitive .u8)
    else if ident = "u16" then .ok (.primitive .u16)
    else if ident = "u32" then .ok (.primitive .u32)
    else if ident = "u64" then .ok (.primitive .u64)
    else if ident = "f32" then .ok (.primitive .f32)
    else if ident = "f64" then .ok (.primitive .f64)
    else if ident = "bool" then .ok (.primitive .bool)
    else if ident = "char" then .ok (.primitive .char)
    else if ident = "str" then .ok (.primitive .str)
    else if ident = "String" then .ok (.primitive .string)
    else
      .error (.mk (some ident) (some "RsType")
        (some ("unknown primitive type " ++ ident)) none none none)

/-- TryFrom for &Field producing RsField (src/rua_parser/src/types.rs line
530): a nameless field is rejected by the builder chain with_source Field,
with_destination RsField, the message, and the span; a type-conversion
failure is rewrapped with the inner error's src, destination RsField, the
field's rendered description, the inner cause, and the field's span. -/
def ruaFieldTryFrom (f : RuaField) : Except RuaError RuaRsField :=
  match f.ident with
  | .none =>
    .error (.mk (some "Field") (some "RsField")
      (some "Field must have an identifier") none none (some f.span))
  | .some name =>
    match ruaConvertType f.ty with
    | .error e =>
      .error (.mk e.src (some "RsField") none
        (some (describeRuaField name f.ty)) (some e) (some f.span))
    | .ok ty => .ok ⟨name, ty⟩

/-- Collect for the rua field conversions (collect over Result). -/
def ruaCollectFields : List RuaField → Except RuaError (List RuaRsField)
  | [] => .ok []
  | f :: rest =>
    match ruaFieldTryFrom f with
    | .error e => .error e
    | .ok rf =>
      match ruaCollectFields rest with
      | .error e => .error e
      | .ok rfs => .ok (rf :: rfs)

/-- TryFrom for &ItemStruct producing RsStruct (src/rua_parser/src/types.rs
line 485): the fields are collected, and any failure is rewrapped with the
inner error's src, destination RsStruct, the struct's rendered description,
the inner cause, and the struct's span; on success the struct is assembled
whole. -/
def ruaStructTryFrom (s : RuaItemStruct) : Except RuaError RuaRsStruct :=
  match ruaCollectFields s.fields with
  | .error e =>
    .error (.mk e.src (some "RsStruct") none
      (some (describeRuaStruct s.ident)) (some e) (some s.span))
  | .ok fields => .ok ⟨s.ident, fields⟩

/-! ## Helper lemmas -/

/-- Ok test for Except values. -/
def exceptOk : Except ε α → Bool
  | .ok _ => true
  | .error _ => false

/-- A collection is not ok when some element's conversion is not ok. -/
theorem runCollect_not_ok {f : α → RunResult ε β} {l : List α} {a : α}
    (ha : a ∈ l) (hf : (f a).isOk = false) :
    (runCollect f l).isOk = false := by
  induction l with
  | nil => cases ha
  | cons hd tl ih =>
    rcases List.mem_cons.mp ha with h | h
    · subst h
      cases hfa : f a with
      | ok b => rw [hfa] at hf; cases hf
      | err e => simp [runCollect, hfa, RunResult.bind, RunResult.isOk]
      | diverged m => simp [runCollect, hfa, RunResult.bind, RunResult.isOk]
    · cases hfa : f hd with
      | ok b =>
        have := ih h
        cases hrest : runCollect f tl with
        | ok bs => rw [hrest] at this; cases this
        | err e =>
          simp [runCollect, hfa, hrest, RunResult.bind, RunResult.map,
            RunResult.isOk]
        | diverged m =>
          simp [runCollect, hfa, hrest, RunResult.bind, RunResult.map,
            RunResult.isOk]
      | err e => simp [runCollect, hfa, RunResult.bind, RunResult.isOk]
      | diverged m => simp [runCollect, hfa, RunResult.bind, RunResult.isOk]

/-- Binding after a non-ok outcome stays non-ok. -/
theorem runBind_not_ok {x : RunResult ε α} {g : α → RunResult ε β}
    (hx : x.isOk = false) : (x.bind g).isOk = false := by
  cases x with
  | ok a => cases hx
  | err e => simp [RunResult.bind, RunResult.isOk]
  | diverged m => simp [RunResult.bind, RunResult.isOk]

/-- Mapping preserves non-ok outcomes. -/
theorem runMap_not_ok {x : RunResult ε α} {g : α → β}
    (hx : x.isOk = false) : (x.map g).isOk = false := by
  cases x with
  | ok a => cases hx
  | err e => simp [RunResult.map, RunResult.isOk]
  | diverged m => simp [RunResult.map, RunResult.isOk]

/-- Scanning around an item whose step leaves every state unchanged gives
the same outcome as scanning without the item. -/
theorem scanItems_insert_noop
    (resolveChild : String → Option (Except ModuleError FlModule))
    (annotations : List String) (item : ScanItem)
    (h : ∀ st, scanStep resolveChild annotations item st = some (.ok st)) :
    ∀ pre post st,
      scanItems resolveChild annotations (pre ++ item :: post) st =
        scanItems resolveChild annotations (pre ++ post) st := by
  intro pre
  induction pre with
  | nil =>
    intro post st
    simp only [List.nil_append, scanItems, h st]
  | cons hd tl ih =>
    intro post st
    simp only [List.cons_append, scanItems]
    cases hs : scanStep resolveChild annotations hd st with
    | none => rfl
    | some r =>
      cases r with
      | error e => rfl
      | ok st1 => exact ih post st1

/-! ## The claims -/

/-- C7: every Primitive variant except I128, U64 and U128 produces a
non-error (native, ffi, host) triple from the type-views function, and
exactly those three variants are rejected; the same partition holds for the
ffi-only view of src/gen/src/conversion.rs. -/
theorem C7_primitive_views_total_except_three :
    ∀ p : RsPrimitive,
      (exceptOk (primName p) = true ↔
        (p ≠ RsPrimitive.i128 ∧ p ≠ RsPrimitive.u64 ∧ p ≠ RsPrimitive.u128)) ∧
      (exceptOk (toDartFfi p) = true ↔
        (p ≠ RsPrimitive.i128 ∧ p ≠ RsPrimitive.u64 ∧ p ≠ RsPrimitive.u128)) := by
  intro p
  cases p <;> exact ⟨by decide, by decide⟩

/-- C4: module lookup reads path/name.rs first and falls back to
path/name.mod.rs only when the first file is unreadable; an unreadable pair
yields InvalidModule with exactly that name and path, and a file that reads
but fails to parse yields the same InvalidModule. -/
theorem C4_read_module_lookup (fs : String → Option String)
    (doParse : String → Option SynFile) (name path : String) :
    (fs (path ++ "/" ++ name ++ ".rs") = none →
      fs (path ++ "/" ++ name ++ ".mod.rs") = none →
      readModule fs doParse (some name) (some path) =
        .error (.invalidModule name path)) ∧
    (∀ c, fs (path ++ "/" ++ name ++ ".rs") = some c →
      (doParse c = none →
        readModule fs doParse (some name) (some path) =
          .error (.invalidModule name path)) ∧
      (∀ file, doParse c = some file →
        readModule fs doParse (some name) (some path) = .ok file)) ∧
    (fs (path ++ "/" ++ name ++ ".rs") = none →
      ∀ c, fs (path ++ "/" ++ name ++ ".mod.rs") = some c →
      (doParse c = none →
        readModule fs doParse (some name) (some path) =
          .error (.invalidModule name path)) ∧
      (∀ file, doParse c = some file →
        readModule fs doParse (some name) (some path) = .ok file)) := by
  refine ⟨fun h1 h2 => ?_, fun c hc => ⟨fun hp => ?_, fun file hp => ?_⟩,
    fun h1 c hc => ⟨fun hp => ?_, fun file hp => ?_⟩⟩
  · simp [readModule, h1, h2]
  · simp [readModule, hc, hp]
  · simp [readModule, hc, hp]
  · simp [readModule, h1, hc, hp]
  · simp [readModule, h1, hc, hp]

/-- Witness for C4 at the spec's module-not-found example: an empty file
system resolves the module missing at /tmp/doesnotexist to InvalidModule
with that very name and path. -/
theorem C4_read_module_lookup_witness :
    readModule (fun _ => none) (fun _ => none)
        (some "missing") (some "/tmp/doesnotexist") =
      .error (.invalidModule "missing" "/tmp/doesnotexist") :=
  (C4_read_module_lookup (fun _ => none) (fun _ => none)
    "missing" "/tmp/doesnotexist").1 rfl rfl

/-- C3: among scanned items, a public function, struct or enum is included
exactly when some attribute of it matches the marker set, where a Path or
List attribute matches through an exact single-segment identifier match and
a name=value attribute never matches; a non-public item is never included,
matching attribute or not. The converted declaration is appended to the
respective list; everything else in the builder is untouched. -/
theorem C3_marker_attribute_filter (annotations : List String)
    (st : BuilderState) :
    (∀ f : SynItemFn,
      (f.vis ≠ .public → handleFn annotations f st = some st) ∧
      (f.attrs.any (shouldInclude annotations) = false →
        handleFn annotations f st = some st) ∧
      (∀ rf, f.vis = .public → rRsFnFromItemFn f = some rf →
        f.attrs.any (shouldInclude annotations) = true →
        handleFn annotations f st =
          some { st with functions := st.functions ++ [rf] })) ∧
    (∀ s : SynItemStruct,
      (s.vis ≠ .public → handleStruct annotations s st = some st) ∧
      (s.attrs.any (shouldInclude annotations) = false →
        handleStruct annotations s st = some st) ∧
      (∀ rs, s.vis = .public → rRsStructFromItemStruct s = some rs →
        s.attrs.any (shouldInclude annotations) = true →
        handleStruct annotations s st =
          some { st with structs := st.structs ++ [rs] })) ∧
    (∀ e : SynItemEnum,
      (e.vis ≠ .public → handleEnum annotations e st = some st) ∧
      (e.attrs.any (shouldInclude annotations) = false →
        handleEnum annotations e st = some st) ∧
      (∀ re, e.vis = .public → rRsEnumFromItemEnum e = some re →
        e.attrs.any (shouldInclude annotations) = true →
        handleEnum annotations e st =
          some { st with enums := st.enums ++ [re] })) ∧
    (∀ segs, shouldInclude annotations (SynMeta.path segs) = true ↔
      ∃ a ∈ annotations, segs = [a]) ∧
    (∀ segs, shouldInclude annotations (SynMeta.list segs) = true ↔
      ∃ a ∈ annotations, segs = [a]) ∧
    (∀ segs, shouldInclude annotations (SynMeta.nameValue segs) = false) := by
  refine ⟨fun f => ⟨fun hv => ?_, fun ha => ?_, fun rf hv hc ha => ?_⟩,
    fun s => ⟨fun hv => ?_, fun ha => ?_, fun rs hv hc ha => ?_⟩,
    fun e => ⟨fun hv => ?_, fun ha => ?_, fun re hv hc ha => ?_⟩,
    fun segs => ?_, fun segs => ?_, fun segs => ?_⟩
  · cases h : f.vis <;> simp [handleFn, h] <;> exact absurd h hv
  · cases h : f.vis <;> simp [handleFn, h, ha]
  · simp [handleFn, hv, ha, hc, Option.map]
  · cases h : s.vis <;> simp [handleStruct, h] <;> exact absurd h hv
  · cases h : s.vis <;> simp [handleStruct, h, ha]
  · simp [handleStruct, hv, ha, hc, Option.map]
  · cases h : e.vis <;> simp [handleEnum, h] <;> exact absurd h hv
  · cases h : e.vis <;> simp [handleEnum, h, ha]
  · simp [handleEnum, hv, ha, hc, Option.map]
  · simp [shouldInclude, pathIsIdent, List.any_eq_true]
  · simp [shouldInclude, pathIsIdent, List.any_eq_true]
  · simp [shouldInclude]

/-- Witness for C3 at the spec's filtering example: with the marker set
containing export, a public function carrying the export attribute is
included, the same function without a matching attribute is excluded, and a
private function carrying the attribute is excluded. -/
theorem C3_marker_attribute_filter_witness :
    handleFn ["export"]
        ⟨[SynMeta.path ["export"]], .public, "f", [], .default⟩
        ⟨[], [], [], []⟩ =
      some ⟨[], [], [RRsFn.mk "f" [] (.primitive .unit)], []⟩ ∧
    handleFn ["export"] ⟨[], .public, "f", [], .default⟩ ⟨[], [], [], []⟩ =
      some ⟨[], [], [], []⟩ ∧
    handleFn ["export"]
        ⟨[SynMeta.path ["export"]], .inherited, "f", [], .default⟩
        ⟨[], [], [], []⟩ =
      some ⟨[], [], [], []⟩ := by
  refine ⟨?_, ?_, ?_⟩
  · exact ((C3_marker_attribute_filter ["export"] ⟨[], [], [], []⟩).1
      ⟨[SynMeta.path ["export"]], .public, "f", [], .default⟩).2.2
      (RRsFn.mk "f" [] (.primitive .unit)) rfl rfl (by decide)
  · exact ((C3_marker_attribute_filter ["export"] ⟨[], [], [], []⟩).1
      ⟨[], .public, "f", [], .default⟩).2.1 (by decide)
  · exact ((C3_marker_attribute_filter ["export"] ⟨[], [], [], []⟩).1
      ⟨[SynMeta.path ["export"]], .inherited, "f", [], .default⟩).1
      (by decide)

/-- C10: a public function, struct or enum item carrying no attributes at
all is silently excluded: its handler returns the builder state unchanged
with no error and no panic, and the scan of the surrounding item list is
unchanged by the item's presence. -/
theorem C10_attributeless_item_silently_skipped
    (resolveChild : String → Option (Except ModuleError FlModule))
    (annotations : List String) :
    (∀ f : SynItemFn, f.vis = .public → f.attrs = [] →
      (∀ st, handleFn annotations f st = some st) ∧
      ∀ pre post st,
        scanItems resolveChild annotations
            (pre ++ ScanItem.fnItem f :: post) st =
          scanItems resolveChild annotations (pre ++ post) st) ∧
    (∀ s : SynItemStruct, s.vis = .public → s.attrs = [] →
      (∀ st, handleStruct annotations s st = some st) ∧
      ∀ pre post st,
        scanItems resolveChild annotations
            (pre ++ ScanItem.structItem s :: post) st =
          scanItems resolveChild annotations (pre ++ post) st) ∧
    (∀ e : SynItemEnum, e.vis = .public → e.attrs = [] →
      (∀ st, handleEnum annotations e st = some st) ∧
      ∀ pre post st,
        scanItems resolveChild annotations
            (pre ++ ScanItem.enumItem e :: post) st =
          scanItems resolveChild annotations (pre ++ post) st) := by
  refine ⟨fun f hv ha => ?_, fun s hv ha => ?_, fun e hv ha => ?_⟩
  · have hstep : ∀ st, handleFn annotations f st = some st := fun st => by
      simp [handleFn, hv, ha]
    exact ⟨hstep, scanItems_insert_noop resolveChild annotations _
      (fun st => by simp [scanStep, hstep st])⟩
  · have hstep : ∀ st, handleStruct annotations s st = some st := fun st => by
      simp [handleStruct, hv, ha]
    exact ⟨hstep, scanItems_insert_noop resolveChild annotations _
      (fun st => by simp [scanStep, hstep st])⟩
  · have hstep : ∀ st, handleEnum annotations e st = some st := fun st => by
      simp [handleEnum, hv, ha]
    exact ⟨hstep, scanItems_insert_noop resolveChild annotations _
      (fun st => by simp [scanStep, hstep st])⟩

/-- Witness for C10: a public attribute-less function leaves the handler
state unchanged and its presence does not alter a scan outcome. -/
theorem C10_attributeless_item_silently_skipped_witness :
    handleFn ["export"] ⟨[], .public, "g", [], .default⟩ ⟨[], [], [], []⟩ =
      some ⟨[], [], [], []⟩ ∧
    scanItems (fun _ => none) ["export"]
        [ScanItem.fnItem ⟨[], .public, "g", [], .default⟩] ⟨[], [], [], []⟩ =
      scanItems (fun _ => none) ["export"] [] ⟨[], [], [], []⟩ := by
  have h := (C10_attributeless_item_silently_skipped (fun _ => none)
    ["export"]).1 ⟨[], .public, "g", [], .default⟩ rfl rfl
  exact ⟨h.1 ⟨[], [], [], []⟩, h.2 [] [] ⟨[], [], [], []⟩⟩

/-- C9: function extraction takes the signature identifier as the name,
converts each argument through the Field extraction, rejects a method
receiver argument with ReceiverField, and produces the Unit primitive as
return type whenever the source omits one; a function with a receiver among
its inputs never extracts successfully. -/
theorem C9_fn_extraction (f : SynItemFn) :
    (pRsFieldFromFnArg SynFnArg.receiver =
      .err (.receiverField "FnArg::Receiver"
        "Function receivers are not supported")) ∧
    (∀ args, runCollect pRsFieldFromFnArg f.inputs = .ok args →
      (∀ ret, pRsRetFromOutput f.output = .ok ret →
        pRsFnFromItemFn f = .ok (PRsFn.mk f.ident args ret)) ∧
      (f.output = .default →
        pRsFnFromItemFn f = .ok (PRsFn.mk f.ident args (.primitive .unit)))) ∧
    (SynFnArg.receiver ∈ f.inputs → (pRsFnFromItemFn f).isOk = false) := by
  refine ⟨rfl, fun args hargs => ⟨fun ret hret => ?_, fun hout => ?_⟩,
    fun hrec => ?_⟩
  · simp [pRsFnFromItemFn, hargs, hret, RunResult.bind, RunResult.map]
  · simp [pRsFnFromItemFn, hargs, hout, pRsRetFromOutput, RunResult.bind,
      RunResult.map]
  · exact runBind_not_ok (runCollect_not_ok hrec (by rfl))

/-- Witness for C9: a function of one named i32 argument with omitted
return type extracts to its identifier, the converted argument list, and
the Unit return; a function whose argument list contains a receiver does
not extract. -/
theorem C9_fn_extraction_witness :
    pRsFnFromItemFn
        ⟨[], .public, "do_it",
          [SynFnArg.typed (.identPat "x") (.path [.mk "i32" .none])],
          .default⟩ =
      .ok (PRsFn.mk "do_it" [PRsField.mk "x" (.primitive .i32)]
        (.primitive .unit)) ∧
    (pRsFnFromItemFn ⟨[], .public, "m", [SynFnArg.receiver], .default⟩).isOk
      = false := by
  refine ⟨?_, ?_⟩
  · exact ((C9_fn_extraction
      ⟨[], .public, "do_it",
        [SynFnArg.typed (.identPat "x") (.path [.mk "i32" .none])],
        .default⟩).2.1 [PRsField.mk "x" (.primitive .i32)] (by simp [runCollect, pRsFieldFromFnArg, pRsTypeFromType, pRsTypeFromTypePath, RsPrimitive.fromStr, Except.map, RunResult.ofExcept, RunResult.bind, RunResult.map, SynPathSegment.ident, SynPathSegment.arguments])).2 rfl
  · exact (C9_fn_extraction
      ⟨[], .public, "m", [SynFnArg.receiver], .default⟩).2.2 (by simp)

/-- C2 counterexample: a raw 128-bit integer type node is converted
successfully to the I128 primitive by the fallible type converter instead
of producing an error variant, and the raw u64 node likewise converts to
U64; the claimed error return for these unsupported-condition nodes is
therefore false. -/
theorem C2_counterexample_i128_u64_convert_ok :
    pRsTypeFromType (.path [.mk "i128" .none]) = .ok (.primitive .i128) ∧
    pRsTypeFromType (.path [.mk "u64" .none]) = .ok (.primitive .u64) := by
  constructor <;>
    simp [pRsTypeFromType, pRsTypeFromTypePath, RsPrimitive.fromStr, Except.map,
      RunResult.ofExcept, SynPathSegment.ident, SynPathSegment.arguments]

/-- C2 amended: in the fallible converter, a named-path node with generic
arguments (the optional wrapper included) yields the GenericType error and
an array node with convertible element but non-literal length yields the
UnknownArrayLength error, both through the Result; 128-bit and unsigned
64-bit integer nodes are converted successfully as primitives (their
rejection happens later, in the generator's primitive views); and the
infallible From-based converter panics on an unrecognized first path
segment instead of returning an error. -/
theorem C2_unsupported_conditions_amended (seg : SynPathSegment)
    (rest : List SynPathSegment) :
    (seg.arguments ≠ .none →
      pRsTypeFromType (.path (seg :: rest)) =
        .err (.genericType "Type::Path" "Generic types are not supported")) ∧
    (∀ elem len ty, pRsTypeFromType elem = .ok ty →
      (∀ n, len ≠ SynExpr.lit (.int n)) →
      pRsTypeFromType (.array elem len) =
        .err (.unknownArrayLength "Type::Array" "Unknown array length")) ∧
    (pRsTypeFromType (.path [.mk "i128" .none]) = .ok (.primitive .i128) ∧
      pRsTypeFromType (.path [.mk "u64" .none]) = .ok (.primitive .u64) ∧
      pRsTypeFromType (.path [.mk "u128" .none]) = .ok (.primitive .u128)) ∧
    (∀ name args rest1, rPrimFromName name = none →
      rRsTypeFromType (.path (.mk name args :: rest1)) = none) := by
  refine ⟨fun hargs => ?_, fun elem len ty helem hlen => ?_,
    ⟨by simp [pRsTypeFromType, pRsTypeFromTypePath, RsPrimitive.fromStr, Except.map,
        RunResult.ofExcept, SynPathSegment.ident, SynPathSegment.arguments],
      by simp [pRsTypeFromType, pRsTypeFromTypePath, RsPrimitive.fromStr, Except.map,
        RunResult.ofExcept, SynPathSegment.ident, SynPathSegment.arguments],
      by simp [pRsTypeFromType, pRsTypeFromTypePath, RsPrimitive.fromStr, Except.map,
        RunResult.ofExcept, SynPathSegment.ident, SynPathSegment.arguments]⟩,
    fun name args rest1 hname => ?_⟩
  · cases hs : seg with
    | mk ident arguments =>
      cases arguments with
      | none => exact absurd (by rw [hs]; rfl) hargs
      | angleBracketed genArgs =>
        simp [pRsTypeFromType, pRsTypeFromTypePath, RunResult.ofExcept, hs,
          SynPathSegment.arguments]
      | parenthesized =>
        simp [pRsTypeFromType, pRsTypeFromTypePath, RunResult.ofExcept, hs,
          SynPathSegment.arguments]
  · cases len with
    | lit l =>
      cases l with
      | int n => exact absurd rfl (hlen n)
      | otherLit =>
        simp [pRsTypeFromType, pRsArrayFromTypeArray, helem, RunResult.bind,
          RunResult.map]
    | otherExpr =>
      simp [pRsTypeFromType, pRsArrayFromTypeArray, helem, RunResult.bind,
        RunResult.map]
  · simp [rRsTypeFromType, SynPathSegment.ident, hname]

/-- Witness for C2 amended, at a Vec generic path, a bool array of
non-literal length, and the panicking converter at the Vec path head. -/
theorem C2_unsupported_conditions_amended_witness :
    pRsTypeFromType (.path [.mk "Vec" (.angleBracketed [])]) =
      .err (.genericType "Type::Path" "Generic types are not supported") ∧
    pRsTypeFromType (.array (.path [.mk "bool" .none]) .otherExpr) =
      .err (.unknownArrayLength "Type::Array" "Unknown array length") ∧
    rRsTypeFromType (.path [.mk "Vec" (.angleBracketed [])]) = none := by
  have h := C2_unsupported_conditions_amended
    (.mk "Vec" (.angleBracketed [])) []
  refine ⟨h.1 (by simp [SynPathSegment.arguments]), ?_, ?_⟩
  · exact h.2.1 (.path [.mk "bool" .none]) .otherExpr (.primitive .bool)
      (by simp [pRsTypeFromType, pRsTypeFromTypePath, RsPrimitive.fromStr,
        Except.map, RunResult.ofExcept, SynPathSegment.ident,
        SynPathSegment.arguments]) (by intro n h2; cases h2)
  · exact h.2.2.2 "Vec" (.angleBracketed []) [] (by rfl)

/-- C1: evaluation at the input the claim describes, the optional wrapper
over a 32-bit integer (a single-segment Option path with one
angle-bracketed i32 argument). The fallible converter returns the
GenericType error rather than a Pointer; the infallible converter panics,
because its first path segment is looked up in the primitive table before
its Option branch can apply; and that Option branch, reachable only for
non-first segments, is exactly a Pointer around the converted inner type
(with no mutability flag in this crate's Pointer). -/
theorem C1_option_i32_not_pointer :
    pRsTypeFromType
        (.path [.mk "Option"
          (.angleBracketed [.type (.path [.mk "i32" .none])])]) =
      .err (.genericType "Type::Path" "Generic types are not supported") ∧
    rRsTypeFromType
        (.path [.mk "Option"
          (.angleBracketed [.type (.path [.mk "i32" .none])])]) = none ∧
    rFoldSegments (.primitive .i32)
        [.mk "Option" (.angleBracketed [.type (.path [.mk "i32" .none])])] =
      some (.pointer (.primitive .i32)) := by
  refine ⟨?_, ?_, ?_⟩ <;>
    simp [pRsTypeFromType, pRsTypeFromTypePath, RsPrimitive.fromStr, Except.map,
      RunResult.ofExcept, rRsTypeFromType, rFoldSegments, rPrimFromName,
      SynPathSegment.ident, SynPathSegment.arguments]

/-- C5 counterexample: a tuple-style struct with one unnamed i32 field
fails extraction with the UnnamedField error instead of succeeding with a
synthesized positional name. -/
theorem C5_counterexample_unnamed_field_fails :
    pRsStructFromItemStruct
        ⟨[], .public, "Foo", .unnamed [⟨none, .path [.mk "i32" .none]⟩]⟩ =
      .err (.unnamedField "Field" "Unnamed fields are not supported") := by
  rfl

/-- C5 amended: field extraction never synthesizes positional names. A
field lacking a name always fails the fallible Field extraction with
UnnamedField (and the infallible one panics), so a struct or enum variant
containing an unnamed field never extracts successfully, whether or not
named output is required. -/
theorem C5_unnamed_fields_always_fail :
    (∀ f : SynField, f.ident = none →
      pRsFieldFromField f =
        .err (.unnamedField "Field" "Unnamed fields are not supported")) ∧
    (∀ s : SynItemStruct, (∃ f ∈ s.fields.list, f.ident = none) →
      (pRsStructFromItemStruct s).isOk = false) ∧
    (∀ v : SynVariant, (∃ f ∈ v.fields.list, f.ident = none) →
      (pRsVariantFromVariant v).isOk = false) ∧
    (∀ f : SynField, f.ident = none → rRsFieldFromField f = none) := by
  have hfield : ∀ f : SynField, f.ident = none →
      pRsFieldFromField f =
        .err (.unnamedField "Field" "Unnamed fields are not supported") := by
    intro f hf
    simp [pRsFieldFromField, hf]
  refine ⟨hfield, fun s hex => ?_, fun v hex => ?_, fun f hf => ?_⟩
  · obtain ⟨f, hmem, hf⟩ := hex
    have hnot : (pRsFieldFromField f).isOk = false := by
      rw [hfield f hf]; rfl
    cases hs : s.fields with
    | named fs =>
      rw [hs] at hmem
      exact runMap_not_ok (by
        simpa [pRsStructFromItemStruct, hs] using
          runCollect_not_ok (f := pRsFieldFromField) hmem hnot) |>.trans rfl
    | unnamed fs =>
      rw [hs] at hmem
      exact runMap_not_ok (by
        simpa [pRsStructFromItemStruct, hs] using
          runCollect_not_ok (f := pRsFieldFromField) hmem hnot) |>.trans rfl
    | unit => rw [hs] at hmem; cases hmem
  · obtain ⟨f, hmem, hf⟩ := hex
    have hnot : (pRsFieldFromField f).isOk = false := by
      rw [hfield f hf]; rfl
    cases hs : v.fields with
    | named fs =>
      rw [hs] at hmem
      exact runMap_not_ok (by
        simpa [pRsVariantFromVariant, hs] using
          runCollect_not_ok (f := pRsFieldFromField) hmem hnot) |>.trans rfl
    | unnamed fs =>
      rw [hs] at hmem
      exact runMap_not_ok (by
        simpa [pRsVariantFromVariant, hs] using
          runCollect_not_ok (f := pRsFieldFromField) hmem hnot) |>.trans rfl
    | unit => rw [hs] at hmem; cases hmem
  · simp [rRsFieldFromField, hf]

/-- Witness for C5 amended, at the counterexample struct and its variant
analogue. -/
theorem C5_unnamed_fields_always_fail_witness :
    pRsFieldFromField ⟨none, .path [.mk "i32" .none]⟩ =
      .err (.unnamedField "Field" "Unnamed fields are not supported") ∧
    (pRsStructFromItemStruct
        ⟨[], .public, "Foo",
          .unnamed [⟨none, .path [.mk "i32" .none]⟩]⟩).isOk = false ∧
    (pRsVariantFromVariant
        ⟨"A", .unnamed [⟨none, .path [.mk "i32" .none]⟩]⟩).isOk = false := by
  refine ⟨?_, ?_, ?_⟩
  · exact C5_unnamed_fields_always_fail.1 ⟨none, .path [.mk "i32" .none]⟩ rfl
  · exact C5_unnamed_fields_always_fail.2.1
      ⟨[], .public, "Foo", .unnamed [⟨none, .path [.mk "i32" .none]⟩]⟩
      ⟨⟨none, .path [.mk "i32" .none]⟩, by simp [SynFields.list], rfl⟩
  · exact C5_unnamed_fields_always_fail.2.2.1
      ⟨"A", .unnamed [⟨none, .path [.mk "i32" .none]⟩]⟩
      ⟨⟨none, .path [.mk "i32" .none]⟩, by simp [SynFields.list], rfl⟩

/-- C8: when any field of a struct fails conversion, the whole struct
extraction fails with a ConversionError that wraps the field's error as its
boxed cause, carries the struct's rendered description and source span, and
whose cause chain bottoms out in the innermost entry of the field failure;
a field whose type fails conversion likewise wraps the type error with the
field's description and span. No partially extracted struct is returned. -/
theorem C8_struct_failure_wraps_cause (s : RuaItemStruct) :
    (∀ name ty span e, ruaConvertType ty = .error e →
      ruaFieldTryFrom ⟨some name, ty, span⟩ =
        .error (.mk e.src (some "RsField") none
          (some (describeRuaField name ty)) (some e) (some span))) ∧
    (∀ pre f rest fe, s.fields = pre ++ f :: rest →
      (∀ g ∈ pre, ∃ rg, ruaFieldTryFrom g = .ok rg) →
      ruaFieldTryFrom f = .error fe →
      ruaStructTryFrom s =
        .error (.mk fe.src (some "RsStruct") none
          (some (describeRuaStruct s.ident)) (some fe) (some s.span)) ∧
      (RuaError.mk fe.src (some "RsStruct") none
        (some (describeRuaStruct s.ident)) (some fe)
        (some s.span)).innermost = fe.innermost) := by
  constructor
  · intro name ty span e he
    simp [ruaFieldTryFrom, he]
  · intro pre f rest fe hsplit hpre hf
    have hcollect : ruaCollectFields s.fields = .error fe := by
      rw [hsplit]
      clear hsplit
      induction pre with
      | nil => simp [ruaCollectFields, hf]
      | cons g tl ih =>
        obtain ⟨rg, hrg⟩ := hpre g (List.mem_cons_self g tl)
        have := ih fun g1 hg1 => hpre g1 (List.mem_cons_of_mem g hg1)
        simp [ruaCollectFields, hrg, this]
    refine ⟨?_, ?_⟩
    · simp [ruaStructTryFrom, hcollect]
    · cases fe with
      | mk a b c d e f => rfl

/-- Witness for C8 at the spec's failure-propagation example: a struct Foo
with one field x of the unsupported u128 type fails whole; the resulting
error carries destination RsStruct, the rendered description struct Foo,
the struct's span, and a cause chain RsStruct to RsField to the leaf, whose
innermost entry names u128. -/
theorem C8_struct_failure_wraps_cause_witness :
    ruaStructTryFrom
        ⟨"Foo", [⟨some "x", .pathTy "u128", ⟨⟨12, 5⟩, ⟨12, 20⟩⟩⟩],
          ⟨⟨11, 0⟩, ⟨14, 1⟩⟩⟩ =
      .error (.mk (some "u128") (some "RsStruct") none (some "struct Foo")
        (some (.mk (some "u128") (some "RsField") none
          (some "field x: u128")
          (some (.mk (some "u128") (some "RsType")
            (some "unknown primitive type u128") none none none))
          (some ⟨⟨12, 5⟩, ⟨12, 20⟩⟩)))
        (some ⟨⟨11, 0⟩, ⟨14, 1⟩⟩)) ∧
    (RuaError.mk (some "u128") (some "RsStruct") none (some "struct Foo")
      (some (.mk (some "u128") (some "RsField") none (some "field x: u128")
        (some (.mk (some "u128") (some "RsType")
          (some "unknown primitive type u128") none none none))
        (some ⟨⟨12, 5⟩, ⟨12, 20⟩⟩)))
      (some ⟨⟨11, 0⟩, ⟨14, 1⟩⟩)).innermost.src = some "u128" := by
  have h := (C8_struct_failure_wraps_cause
    ⟨"Foo", [⟨some "x", .pathTy "u128", ⟨⟨12, 5⟩, ⟨12, 20⟩⟩⟩],
      ⟨⟨11, 0⟩, ⟨14, 1⟩⟩⟩).2 []
    ⟨some "x", .pathTy "u128", ⟨⟨12, 5⟩, ⟨12, 20⟩⟩⟩ []
    (.mk (some "u128") (some "RsField") none (some "field x: u128")
      (some (.mk (some "u128") (some "RsType")
        (some "unknown primitive type u128") none none none))
      (some ⟨⟨12, 5⟩, ⟨12, 20⟩⟩))
    rfl (fun g hg => absurd hg (List.not_mem_nil g))
    (by simp [ruaFieldTryFrom, ruaConvertType, describeRuaField,
      describeRuaType, RuaError.src])
  exact ⟨h.1, rfl⟩

/-! ## Character-level facts for the naming transforms (ASCII) -/

/-- Char.ofNat round-trips through toNat below the surrogate range. -/
theorem charToNatOfNatSmall (n : Nat) (h : n < 55296) :
    (Char.ofNat n).toNat = n := by
  have hv : n.isValidChar := Or.inl h
  simp only [Char.ofNat, hv, dif_pos, Char.ofNatAux, Char.toNat]
  simp [UInt32.toNat, BitVec.toNat_ofNatLt]

/-- The toLower branch structure, stated over toNat. -/
theorem charToLowerEq (c : Char) :
    c.toLower =
      if 65 ≤ c.toNat ∧ c.toNat ≤ 90 then Char.ofNat (c.toNat + 32)
      else c := by
  simp [Char.toLower, ge_iff_le]

/-- The toUpper branch structure, stated over toNat. -/
theorem charToUpperEq (c : Char) :
    c.toUpper =
      if 97 ≤ c.toNat ∧ c.toNat ≤ 122 then Char.ofNat (c.toNat - 32)
      else c := by
  simp [Char.toUpper, ge_iff_le]

/-- Lowercasing is stable under a round trip through uppercase. -/
theorem charLowerUpperLower (c : Char) :
    (c.toLower.toUpper).toLower = c.toLower := by
  by_cases h : 65 ≤ c.toNat ∧ c.toNat ≤ 90
  · have h1 : (Char.ofNat (c.toNat + 32)).toNat = c.toNat + 32 :=
      charToNatOfNatSmall _ (by omega)
    rw [charToLowerEq c, if_pos h, charToUpperEq, h1,
      if_pos (by omega : 97 ≤ c.toNat + 32 ∧ c.toNat + 32 ≤ 122)]
    have h2 : c.toNat + 32 - 32 = c.toNat := by omega
    rw [h2, charToLowerEq, charToNatOfNatSmall c.toNat (by omega), if_pos h]
  · rw [charToLowerEq c, if_neg h]
    by_cases h2 : 97 ≤ c.toNat ∧ c.toNat ≤ 122
    · rw [charToUpperEq c, if_pos h2]
      have h3 : (Char.ofNat (c.toNat - 32)).toNat = c.toNat - 32 :=
        charToNatOfNatSmall _ (by omega)
      rw [charToLowerEq, h3,
        if_pos (by omega : 65 ≤ c.toNat - 32 ∧ c.toNat - 32 ≤ 90)]
      have h4 : c.toNat - 32 + 32 = c.toNat := by omega
      rw [h4, Char.ofNat_toNat]
    · rw [charToUpperEq c, if_neg h2, charToLowerEq c, if_neg h]

/-- Uppercasing is idempotent. -/
theorem charUpperUpper (c : Char) : c.toUpper.toUpper = c.toUpper := by
  by_cases h : 97 ≤ c.toNat ∧ c.toNat ≤ 122
  · rw [charToUpperEq c, if_pos h]
    have h1 : (Char.ofNat (c.toNat - 32)).toNat = c.toNat - 32 :=
      charToNatOfNatSmall _ (by omega)
    rw [charToUpperEq, h1, if_neg (by omega)]
  · conv_lhs => rw [charToUpperEq c, if_neg h]

/-- Lowercasing cannot produce an underscore from a non-underscore. -/
theorem charLowerNeUnderscore (c : Char) (h : c ≠ '_' ) : c.toLower ≠ '_' := by
  by_cases hr : 65 ≤ c.toNat ∧ c.toNat ≤ 90
  · rw [charToLowerEq c, if_pos hr]
    intro heq
    have h2 := congrArg Char.toNat heq
    rw [charToNatOfNatSmall _ (by omega)] at h2
    have h3 : ( '_' ).toNat = 95 := rfl
    omega
  · rw [charToLowerEq c, if_neg hr]; exact h

/-- Uppercasing cannot produce an underscore from a non-underscore. -/
theorem charUpperNeUnderscore (c : Char) (h : c ≠ '_' ) : c.toUpper ≠ '_' := by
  by_cases hr : 97 ≤ c.toNat ∧ c.toNat ≤ 122
  · rw [charToUpperEq c, if_pos hr]
    intro heq
    have h2 := congrArg Char.toNat heq
    rw [charToNatOfNatSmall _ (by omega)] at h2
    have h3 : ( '_' ).toNat = 95 := rfl
    omega
  · rw [charToUpperEq c, if_neg hr]; exact h

/-! ## List-level facts for the naming transforms -/

/-- The snake loop copies a string without uppercase characters verbatim. -/
theorem snakeLoopId (l : List Char) (h : ∀ c ∈ l, c.isUpper = false) :
    snakeLoop l = l := by
  induction l with
  | nil => rfl
  | cons c rest ih =>
    have hc : c.isUpper = false := h c (List.mem_cons_self c rest)
    rw [snakeLoop.eq_def]
    simp only [hc, Bool.false_eq_true, if_false]
    rw [ih fun d hd => h d (List.mem_cons_of_mem c hd)]

/-- Splitting always yields at least one segment. -/
theorem splitUndNeNil (l : List Char) : splitUnd l ≠ [] := by
  cases l with
  | nil => simp [splitUnd]
  | cons c rest =>
    rw [splitUnd]
    by_cases h : c = '_'
    · simp [h]
    · simp only [if_neg h]
      cases hs : splitUnd rest <;> simp

/-- No segment produced by splitting contains an underscore. -/
theorem memSplitUndNoUnderscore (l : List Char) :
    ∀ seg ∈ splitUnd l, '_' ∉ seg := by
  induction l with
  | nil => intro seg hs; rw [splitUnd] at hs; simp at hs; simp [hs]
  | cons c rest ih =>
    intro seg hs
    rw [splitUnd] at hs
    by_cases h : c = '_'
    · rw [if_pos h] at hs
      rcases List.mem_cons.mp hs with h1 | h1
      · simp [h1]
      · exact ih seg h1
    · rw [if_neg h] at hs
      cases hsplit : splitUnd rest with
      | nil => exact absurd hsplit (splitUndNeNil rest)
      | cons s0 ss =>
        rw [hsplit] at hs
        rcases List.mem_cons.mp hs with h1 | h1
        · subst h1
          intro hmem
          rcases List.mem_cons.mp hmem with h2 | h2
          · exact h h2.symm
          · exact ih s0 (hsplit ▸ List.mem_cons_self s0 ss) h2
        · exact ih seg (hsplit ▸ List.mem_cons_of_mem s0 h1)

/-- Splitting an underscore-free string yields that single segment. -/
theorem splitUndNoUnderscore (l : List Char) (h : '_' ∉ l) :
    splitUnd l = [l] := by
  induction l with
  | nil => rfl
  | cons c rest ih =>
    have hc : ¬ c = '_' := fun hq => h (hq ▸ List.mem_cons_self c rest)
    rw [splitUnd, if_neg hc, ih fun hm => h (List.mem_cons_of_mem c hm)]

/-- Capitalizing preserves underscore-freeness. -/
theorem capitalizeSegNoUnderscore (seg : List Char) (h : '_' ∉ seg) :
    '_' ∉ capitalizeSeg seg := by
  cases seg with
  | nil => simp [capitalizeSeg]
  | cons c rest =>
    rw [capitalizeSeg]
    intro hm
    rcases List.mem_cons.mp hm with h1 | h1
    · exact charUpperNeUnderscore c
        (fun hq => h (hq ▸ List.mem_cons_self c rest)) h1.symm
    · exact h (List.mem_cons_of_mem c h1)

/-- The pascal transform never outputs an underscore. -/
theorem pascalizeNoUnderscore (l : List Char) : '_' ∉ pascalize l := by
  rw [pascalize]
  intro hm
  rcases List.mem_flatten.mp hm with ⟨seg, hseg, hmem⟩
  rcases List.mem_map.mp hseg with ⟨s0, hs0, rfl⟩
  exact capitalizeSegNoUnderscore s0 (memSplitUndNoUnderscore l s0 hs0) hmem

/-- On underscore-free input, the pascal transform only capitalizes. -/
theorem pascalizeOfNoUnderscore (l : List Char) (h : '_' ∉ l) :
    pascalize l = capitalizeSeg l := by
  rw [pascalize, splitUndNoUnderscore l h]
  simp

/-- Lowercasing the head preserves underscore-freeness. -/
theorem lowerFirstNoUnderscore (l : List Char) (h : '_' ∉ l) :
    '_' ∉ lowerFirst l := by
  cases l with
  | nil => simp [lowerFirst]
  | cons c rest =>
    rw [lowerFirst]
    intro hm
    rcases List.mem_cons.mp hm with h1 | h1
    · exact charLowerNeUnderscore c
        (fun hq => h (hq ▸ List.mem_cons_self c rest)) h1.symm
    · exact h (List.mem_cons_of_mem c h1)

/-- The camel-pascal-camel composition collapses to camel. -/
theorem camelPascalCamel (l : List Char) :
    lowerFirst (pascalize (pascalize (lowerFirst (pascalize l)))) =
      lowerFirst (pascalize l) := by
  have hpu : '_' ∉ pascalize l := pascalizeNoUnderscore l
  have h1 : '_' ∉ lowerFirst (pascalize l) := lowerFirstNoUnderscore _ hpu
  rw [pascalizeOfNoUnderscore _ h1]
  have h2 : '_' ∉ capitalizeSeg (lowerFirst (pascalize l)) :=
    capitalizeSegNoUnderscore _ h1
  rw [pascalizeOfNoUnderscore _ h2]
  cases hp : pascalize l with
  | nil => rfl
  | cons c rest =>
    simp [lowerFirst, capitalizeSeg, charUpperUpper, charLowerUpperLower]

/-- C6: the naming-convention derivation is idempotent. Transforming an
identifier with no uppercase character (in particular any snake-case
identifier) through the snake transform returns the identical string, and
for every identifier s the composition camel of pascal of camel equals
camel of s. -/
theorem C6_naming_transforms_idempotent :
    (∀ s : String, (∀ c ∈ s.data, c.isUpper = false) → snakeCase s = s) ∧
    (∀ s : String, camelCase (pascalCase (camelCase s)) = camelCase s) := by
  constructor
  · intro s h
    show String.mk (snakeLoop s.data) = s
    rw [snakeLoopId s.data h]
  · intro s
    exact congrArg String.mk (camelPascalCamel s.data)

/-- Witness for C6 at the identifier hello_world: the snake transform fixes
it, and the camel-pascal-camel composition agrees with camel on it. -/
theorem C6_naming_transforms_idempotent_witness :
    snakeCase "hello_world" = "hello_world" ∧
    camelCase (pascalCase (camelCase "hello_world")) =
      camelCase "hello_world" :=
  ⟨C6_naming_transforms_idempotent.1 "hello_world" (by decide),
    C6_naming_transforms_idempotent.2 "hello_world"⟩
